import Mathlib

/-!
Verification of the deployment pipeline of the cloud-run-mcp repository.

The JavaScript source is shallowly embedded: each asynchronous function is
modelled as a pure Lean function over an explicit description of the outcomes
of its remote calls (the sequence of results that the wrapped backend calls
would return), and the side effects that matter to the specification
(backend calls issued, sleeps performed) are collected in explicit traces.
-/

namespace CloudRunMCP

/-- A JavaScript error value as observed by the deployment code: an optional
`message` string (absent models a JS `undefined` message) and an optional
numeric gRPC `code` property. -/
structure JsError where
  message : Option String
  code : Option Int
deriving DecidableEq

/-- JS truthiness of an optional string (`undefined` and `""` are falsy). -/
def truthyMsg : Option String → Bool
  | some s => !(s == "")
  | none => false

/-- JS template-literal rendering of a possibly absent message
(an `undefined` message interpolates as the text "undefined"). -/
def jsStr : Option String → String
  | some s => s
  | none => "undefined"

/-! ## Retry Executor (`callWithRetry`, lib/cloud-api/helpers.js)

`callWithRetry(fn, description)` loops: call `fn`; on an error with
`error.code === 7` and fewer than `maxRetries` retries used, sleep for the
backoff and loop again, else rethrow.  We embed it as a function of the list
of outcomes of the successive invocations of `fn`.  It returns the final
outcome together with the list of backoff sleeps performed, or `none` when
the outcome list is exhausted before the loop finishes (the real loop would
call `fn` once more). -/

/-- The `maxRetries` constant from the source. -/
def maxRetries : Nat := 7

/-- The `initialBackoff` constant from the source (1000 ms). -/
def initialBackoff : Nat := 1000

/-- Backoff before retry number `r` (1-indexed): 15000 ms for the first
retry, `initialBackoff * 2 ^ (r - 2)` afterwards. -/
def retryBackoff (r : Nat) : Nat :=
  if r = 1 then 15000 else initialBackoff * 2 ^ (r - 2)

/-- The retry loop of `callWithRetry`, with `retries` the current value of
the retry counter. -/
def callWithRetryGo (retries : Nat) :
    List (Except JsError α) → Option (Except JsError α × List Nat)
  | [] => none
  | o :: rest =>
    match o with
    | .ok v => some (.ok v, [])
    | .error e =>
      if e.code = some 7 ∧ retries < maxRetries then
        match callWithRetryGo (retries + 1) rest with
        | some (res, ws) => some (res, retryBackoff (retries + 1) :: ws)
        | none => none
      else
        some (.error e, [])

/-- Embedding of `callWithRetry`, given the outcomes of the successive invocations of the
wrapped operation. -/
def callWithRetry (outcomes : List (Except JsError α)) :
    Option (Except JsError α × List Nat) :=
  callWithRetryGo 0 outcomes

/-- The expected list of backoffs after `k` retries starting from a retry
counter value of `r`. -/
def backoffsFrom (r k : Nat) : List Nat :=
  (List.range k).map (fun i => retryBackoff (r + i + 1))

theorem backoffsFrom_zero (r : Nat) : backoffsFrom r 0 = [] := rfl

theorem backoffsFrom_succ (r k : Nat) :
    backoffsFrom r (k + 1) = retryBackoff (r + 1) :: backoffsFrom (r + 1) k := by
  unfold backoffsFrom
  rw [List.range_succ_eq_map]
  simp only [List.map_cons, List.map_map]
  congr 1
  apply List.map_congr_left
  intro i _
  simp only [Function.comp_apply]
  congr 1
  omega

/-- Core lemma: a block of retryable failures is consumed one retry each, as
long as the retry ceiling is not reached, and the loop then continues on the
remaining outcomes with the retry counter advanced. -/
theorem callWithRetryGo_retryable (errs : List JsError) (retries : Nat)
    (h7 : ∀ e ∈ errs, e.code = some 7)
    (hlen : retries + errs.length ≤ maxRetries)
    (tail : List (Except JsError α)) :
    callWithRetryGo retries (errs.map Except.error ++ tail) =
      (match callWithRetryGo (retries + errs.length) tail with
       | some (res, ws) => some (res, backoffsFrom retries errs.length ++ ws)
       | none => none) := by
  induction errs generalizing retries with
  | nil =>
    simp only [List.map_nil, List.nil_append, List.length_nil, Nat.add_zero,
      backoffsFrom_zero]
    cases callWithRetryGo retries tail with
    | none => rfl
    | some p => cases p with | mk res ws => simp
  | cons e rest ih =>
    have he : e.code = some 7 := h7 e (List.mem_cons_self e rest)
    have hlen7 : retries + (rest.length + 1) ≤ 7 := by
      simpa [maxRetries, List.length_cons] using hlen
    have hr : retries < maxRetries := by
      simp only [maxRetries]
      omega
    simp only [List.map_cons, List.cons_append, callWithRetryGo]
    rw [if_pos ⟨he, hr⟩]
    simp only [List.append_eq]
    rw [ih (retries + 1) (fun x hx => h7 x (List.mem_cons_of_mem e hx))
      (by simp only [maxRetries]; omega)]
    have harith : retries + 1 + rest.length = retries + (rest.length + 1) := by omega
    simp only [List.length_cons]
    rw [harith, backoffsFrom_succ]
    cases callWithRetryGo (retries + (rest.length + 1)) tail with
    | none => rfl
    | some p => cases p with | mk res ws => simp

/-- C3: for the retry executor `callWithRetry`: a sequence of at most 7
retryable failures (gRPC code 7) followed by a success returns the success
value; 7 retryable failures followed by an 8th failure (more than 7 failures
in total) propagates that final error; a non-retryable error is propagated
unwrapped on its first occurrence, with no further invocation of the wrapped
operation (the trailing outcomes are never consumed). -/
theorem claim_c3_callWithRetry {α : Type} (errs : List JsError) (v : α)
    (e8 bad : JsError) (rest : List (Except JsError α))
    (h7 : ∀ e ∈ errs, e.code = some 7) :
    (errs.length ≤ 7 →
      callWithRetry (errs.map Except.error ++ [Except.ok v]) =
        some (Except.ok v, backoffsFrom 0 errs.length)) ∧
    (errs.length = 7 → e8.code = some 7 →
      callWithRetry (errs.map Except.error ++ Except.error e8 :: rest) =
        some (Except.error e8, backoffsFrom 0 7)) ∧
    (errs.length ≤ 7 → bad.code ≠ some 7 →
      callWithRetry (errs.map Except.error ++ Except.error bad :: rest) =
        some (Except.error bad, backoffsFrom 0 errs.length)) := by
  refine ⟨fun hlen => ?_, fun hlen h8 => ?_, fun hlen hbad => ?_⟩
  · unfold callWithRetry
    rw [callWithRetryGo_retryable errs 0 h7 (by simpa [maxRetries] using hlen)]
    simp [callWithRetryGo]
  · unfold callWithRetry
    rw [callWithRetryGo_retryable errs 0 h7 (by simp [maxRetries, hlen])]
    simp only [callWithRetryGo, hlen, Nat.zero_add]
    rw [if_neg (by simp [maxRetries])]
    simp
  · unfold callWithRetry
    rw [callWithRetryGo_retryable errs 0 h7 (by simpa [maxRetries] using hlen)]
    simp only [callWithRetryGo]
    rw [if_neg (by simp [hbad])]
    simp

theorem claim_c3_witness :
    callWithRetry
        (List.map Except.error [(⟨some "p", some 7⟩ : JsError), ⟨some "p", some 7⟩] ++
          [Except.ok (42 : Nat)]) =
      some (Except.ok 42, backoffsFrom 0 2) ∧
    callWithRetry
        (List.map Except.error (List.replicate 7 (⟨some "p", some 7⟩ : JsError)) ++
          Except.error (⟨some "p", some 7⟩ : JsError) :: [Except.ok (0 : Nat)]) =
      some (Except.error (⟨some "p", some 7⟩ : JsError), backoffsFrom 0 7) ∧
    callWithRetry
        (List.map Except.error [(⟨some "p", some 7⟩ : JsError)] ++
          Except.error (⟨some "q", some 13⟩ : JsError) :: [Except.ok (0 : Nat)]) =
      some (Except.error (⟨some "q", some 13⟩ : JsError), backoffsFrom 0 1) := by
  refine ⟨?_, ?_, ?_⟩
  · exact (claim_c3_callWithRetry [⟨some "p", some 7⟩, ⟨some "p", some 7⟩] (42 : Nat)
      ⟨some "p", some 7⟩ ⟨some "p", some 7⟩ [] (by decide)).1 (by decide)
  · exact (claim_c3_callWithRetry (List.replicate 7 (⟨some "p", some 7⟩ : JsError))
      (0 : Nat) ⟨some "p", some 7⟩ ⟨some "p", some 7⟩ [Except.ok 0] (by decide)).2.1
      (by decide) (by decide)
  · exact (claim_c3_callWithRetry [(⟨some "p", some 7⟩ : JsError)] (0 : Nat)
      ⟨some "p", some 7⟩ ⟨some "q", some 13⟩ [Except.ok 0] (by decide)).2.2
      (by decide) (by decide)

/-- C6: in `callWithRetry` the first retry waits exactly 15000 ms and every
subsequent retry `n` (2 ≤ n ≤ 7) waits exactly `1000 * 2 ^ (n - 2)` ms
before re-invoking the operation: the list of sleeps of a run with `k`
retryable failures is `backoffsFrom 0 k`, whose `i`-th element is
`retryBackoff (i + 1)`, and `retryBackoff` satisfies the claimed formulas. -/
theorem claim_c6_backoff_schedule {α : Type} (errs : List JsError) (v : α)
    (h7 : ∀ e ∈ errs, e.code = some 7) (hlen : errs.length ≤ 7) :
    callWithRetry (errs.map Except.error ++ [Except.ok v]) =
      some (Except.ok v, backoffsFrom 0 errs.length) ∧
    (∀ k, backoffsFrom 0 k = (List.range k).map (fun i => retryBackoff (i + 1))) ∧
    retryBackoff 1 = 15000 ∧
    (∀ n, 2 ≤ n → n ≤ 7 → retryBackoff n = 1000 * 2 ^ (n - 2)) := by
  refine ⟨?_, fun k => ?_, rfl, fun n h2 _ => ?_⟩
  · unfold callWithRetry
    rw [callWithRetryGo_retryable errs 0 h7 (by simpa [maxRetries] using hlen)]
    simp [callWithRetryGo]
  · unfold backoffsFrom
    apply List.map_congr_left
    intro i _
    congr 1
    omega
  · unfold retryBackoff initialBackoff
    rw [if_neg (by omega)]

theorem claim_c6_witness :
    callWithRetry
        (List.map Except.error
            [(⟨some "p", some 7⟩ : JsError), ⟨some "p", some 7⟩, ⟨some "p", some 7⟩] ++
          [Except.ok (1 : Nat)]) =
      some (Except.ok 1, backoffsFrom 0 3) ∧
    backoffsFrom 0 3 = [15000, 1000, 2000] := by
  constructor
  · exact (claim_c6_backoff_schedule
      [⟨some "p", some 7⟩, ⟨some "p", some 7⟩, ⟨some "p", some 7⟩] (1 : Nat)
      (by decide) (by decide)).1
  · decide

/-! ## API Activation Gate (`ensureApisEnabled`, lib/cloud-api/helpers.js)

`ensureApisEnabled(context, projectId, apis, progressCallback)` walks the
capability list in order; for each it runs `checkAndEnableApi`; on failure it
sleeps 1000 ms and runs it once more; a second failure throws
"Failed to ensure API [{api}] is enabled after retry. Please check manually."
`checkAndEnableApi` fetches the service state with `getService` and, when the
state is not "ENABLED", calls `enableService` and awaits its operation. -/

/-- Outcomes of the remote calls of the gate, per capability and per attempt
number (1 or 2): the result of the `getService` state fetch (`none` models a
throw after the Retry Executor gave up, `some s` the fetched state string),
and whether the `enableService` call together with awaiting its operation
succeeds. -/
structure ApiBackend where
  getRes : String → Nat → Option String
  enableRes : String → Nat → Bool

/-- Calls issued and sleeps performed by the gate. Events are indexed by the
capability identifier; the actual remote calls address the fully qualified
name "projects/{projectId}/services/{api}" derived from it. -/
inductive GateEvent
  | getSvc (api : String)
  | enableSvc (api : String)
  | wait (ms : Nat)
deriving DecidableEq

/-- One invocation of `checkAndEnableApi` for capability `api` on attempt
`n`: whether it succeeded, and the remote calls it made (`getService` first;
when the fetched state is not "ENABLED", `enableService` follows). -/
def checkAndEnableApi (b : ApiBackend) (api : String) (n : Nat) :
    Bool × List GateEvent :=
  match b.getRes api n with
  | none => (false, [GateEvent.getSvc api])
  | some st =>
    if st = "ENABLED" then (true, [GateEvent.getSvc api])
    else if b.enableRes api n then
      (true, [GateEvent.getSvc api, GateEvent.enableSvc api])
    else (false, [GateEvent.getSvc api, GateEvent.enableSvc api])

/-- Embedding of `ensureApisEnabled`: the trace of calls and sleeps, and the fatal error
message if the gate aborted. -/
def ensureApisEnabled (b : ApiBackend) : List String → List GateEvent × Option String
  | [] => ([], none)
  | api :: rest =>
    if (checkAndEnableApi b api 1).1 then
      ((checkAndEnableApi b api 1).2 ++ (ensureApisEnabled b rest).1,
        (ensureApisEnabled b rest).2)
    else if (checkAndEnableApi b api 2).1 then
      ((checkAndEnableApi b api 1).2 ++
          GateEvent.wait 1000 :: (checkAndEnableApi b api 2).2 ++
            (ensureApisEnabled b rest).1,
        (ensureApisEnabled b rest).2)
    else
      ((checkAndEnableApi b api 1).2 ++
          GateEvent.wait 1000 :: (checkAndEnableApi b api 2).2,
        some ("Failed to ensure API [" ++ api ++
          "] is enabled after retry. Please check manually."))

/-- Number of `enableService` calls issued for a given capability. -/
def countEnableCalls (tr : List GateEvent) (api : String) : Nat :=
  tr.countP (fun ev => decide (ev = GateEvent.enableSvc api))

theorem checkAndEnableApi_events_shape (b : ApiBackend) (api : String) (n : Nat)
    (ev : GateEvent) (hev : ev ∈ (checkAndEnableApi b api n).2) :
    ev = GateEvent.getSvc api ∨ ev = GateEvent.enableSvc api := by
  unfold checkAndEnableApi at hev
  cases hres : b.getRes api n with
  | none =>
    rw [hres] at hev
    simp at hev
    simp [hev]
  | some st =>
    rw [hres] at hev
    by_cases h : st = "ENABLED"
    · simp [h] at hev
      simp [hev]
    · by_cases h2 : b.enableRes api n = true
      · simp [h, h2] at hev
        tauto
      · simp [h, h2] at hev
        tauto

theorem enableSvc_mem_gate_trace (b : ApiBackend) (apis : List String) (a : String)
    (h : GateEvent.enableSvc a ∈ (ensureApisEnabled b apis).1) : a ∈ apis := by
  induction apis with
  | nil => simp [ensureApisEnabled] at h
  | cons x rest ih =>
    have hcheck : ∀ n, GateEvent.enableSvc a ∈ (checkAndEnableApi b x n).2 → a = x := by
      intro n hn
      rcases checkAndEnableApi_events_shape b x n _ hn with h1 | h1
      · exact absurd h1 (by simp)
      · cases h1
        rfl
    unfold ensureApisEnabled at h
    by_cases c1 : (checkAndEnableApi b x 1).1 = true
    · simp only [c1, if_true] at h
      rcases List.mem_append.mp h with hh | hh
      · exact (hcheck 1 hh) ▸ List.mem_cons_self x rest
      · exact List.mem_cons_of_mem x (ih hh)
    · simp only [c1] at h
      by_cases c2 : (checkAndEnableApi b x 2).1 = true
      · simp only [c2, if_true, if_false] at h
        rcases List.mem_append.mp h with hh | hh
        · rcases List.mem_append.mp hh with h3 | h3
          · exact (hcheck 1 h3) ▸ List.mem_cons_self x rest
          · rcases List.mem_cons.mp h3 with hw | h4
            · exact absurd hw (by simp)
            · exact (hcheck 2 h4) ▸ List.mem_cons_self x rest
        · exact List.mem_cons_of_mem x (ih hh)
      · simp only [c2, if_false] at h
        rcases List.mem_append.mp h with hh | hh
        · exact (hcheck 1 hh) ▸ List.mem_cons_self x rest
        · rcases List.mem_cons.mp hh with hw | hh2
          · exact absurd hw (by simp)
          · exact (hcheck 2 hh2) ▸ List.mem_cons_self x rest

theorem countEnableCalls_eq_zero_of_not_mem (b : ApiBackend) (apis : List String)
    (a : String) (ha : a ∉ apis) :
    countEnableCalls (ensureApisEnabled b apis).1 a = 0 := by
  unfold countEnableCalls
  rw [List.countP_eq_zero]
  intro ev hev
  simp only [decide_eq_true_eq]
  intro heq
  exact ha (enableSvc_mem_gate_trace b apis a (heq ▸ hev))

theorem checkAndEnableApi_ok (b : ApiBackend) (a : String)
    (hg : (b.getRes a 1).isSome = true) (he : b.enableRes a 1 = true) :
    (checkAndEnableApi b a 1).1 = true ∧
    (checkAndEnableApi b a 1).2 =
      GateEvent.getSvc a ::
        (if b.getRes a 1 = some "ENABLED" then [] else [GateEvent.enableSvc a]) := by
  obtain ⟨st, hst⟩ := Option.isSome_iff_exists.mp hg
  unfold checkAndEnableApi
  rw [hst]
  by_cases h : st = "ENABLED"
  · subst h
    simp [hst]
  · simp [h, he, hst]

/-- C5: when every state fetch and every enable call succeeds, the gate calls
`enableService` exactly once for each capability whose fetched state is not
"ENABLED" and zero times for each capability whose fetched state is
"ENABLED", and the gate does not abort. -/
theorem claim_c5_gate_enable_counts (b : ApiBackend) (apis : List String)
    (hnd : apis.Nodup)
    (hok : ∀ a ∈ apis, (b.getRes a 1).isSome = true ∧ b.enableRes a 1 = true) :
    (ensureApisEnabled b apis).2 = none ∧
    ∀ a ∈ apis,
      countEnableCalls (ensureApisEnabled b apis).1 a =
        (if b.getRes a 1 = some "ENABLED" then 0 else 1) := by
  induction apis with
  | nil => exact ⟨rfl, by simp⟩
  | cons x rest ih =>
    have hx := hok x (List.mem_cons_self x rest)
    obtain ⟨hok1, htr⟩ := checkAndEnableApi_ok b x hx.1 hx.2
    have hxnot : x ∉ rest := (List.nodup_cons.mp hnd).1
    obtain ⟨ihnone, ihcount⟩ :=
      ih (List.nodup_cons.mp hnd).2 (fun a ha => hok a (List.mem_cons_of_mem x ha))
    constructor
    · simp only [ensureApisEnabled, hok1, if_true]
      exact ihnone
    · intro a ha
      simp only [ensureApisEnabled, hok1, if_true]
      unfold countEnableCalls
      rw [List.countP_append]
      rcases List.mem_cons.mp ha with rfl | harest
      · have hzero := countEnableCalls_eq_zero_of_not_mem b rest a hxnot
        unfold countEnableCalls at hzero
        rw [hzero, Nat.add_zero, htr]
        by_cases hEn : b.getRes a 1 = some "ENABLED"
        · simp [hEn]
        · simp [hEn]
      · have hne : a ≠ x := fun heq => hxnot (heq ▸ harest)
        have hone := ihcount a harest
        unfold countEnableCalls at hone
        rw [hone, htr]
        by_cases hEn : b.getRes x 1 = some "ENABLED"
        · simp [hEn, Ne.symm hne]
        · simp [hEn, Ne.symm hne]

theorem claim_c5_witness :
    (ensureApisEnabled
        ⟨fun a _ => some (if a = "run.googleapis.com" then "ENABLED" else "DISABLED"),
          fun _ _ => true⟩
        ["run.googleapis.com", "artifactregistry.googleapis.com"]).2 = none ∧
    countEnableCalls
        (ensureApisEnabled
          ⟨fun a _ => some (if a = "run.googleapis.com" then "ENABLED" else "DISABLED"),
            fun _ _ => true⟩
          ["run.googleapis.com", "artifactregistry.googleapis.com"]).1
        "artifactregistry.googleapis.com" = 1 ∧
    countEnableCalls
        (ensureApisEnabled
          ⟨fun a _ => some (if a = "run.googleapis.com" then "ENABLED" else "DISABLED"),
            fun _ _ => true⟩
          ["run.googleapis.com", "artifactregistry.googleapis.com"]).1
        "run.googleapis.com" = 0 := by
  have h := claim_c5_gate_enable_counts
    ⟨fun a _ => some (if a = "run.googleapis.com" then "ENABLED" else "DISABLED"),
      fun _ _ => true⟩
    ["run.googleapis.com", "artifactregistry.googleapis.com"]
    (by decide) (by decide)
  refine ⟨h.1, ?_, ?_⟩
  · have h2 := h.2 "artifactregistry.googleapis.com" (by decide)
    rw [if_neg (by decide)] at h2
    exact h2
  · have h2 := h.2 "run.googleapis.com" (by decide)
    rw [if_pos (by decide)] at h2
    exact h2

theorem ensureApisEnabled_append_ok (b : ApiBackend) (pre : List String)
    (hpre : ∀ y ∈ pre,
      (checkAndEnableApi b y 1).1 = true ∨ (checkAndEnableApi b y 2).1 = true)
    (rest : List String) :
    ensureApisEnabled b (pre ++ rest) =
      ((ensureApisEnabled b pre).1 ++ (ensureApisEnabled b rest).1,
        (ensureApisEnabled b rest).2) := by
  induction pre with
  | nil => simp [ensureApisEnabled]
  | cons y tl ih =>
    have hy := hpre y (List.mem_cons_self y tl)
    have ihtl := ih (fun z hz => hpre z (List.mem_cons_of_mem y hz))
    by_cases hy1 : (checkAndEnableApi b y 1).1 = true
    · simp only [List.cons_append, ensureApisEnabled, List.append_eq]
      rw [ihtl]
      simp [hy1, List.append_assoc]
    · have hy2 : (checkAndEnableApi b y 2).1 = true := by
        rcases hy with h | h
        · exact absurd h hy1
        · exact h
      simp only [List.cons_append, ensureApisEnabled, List.append_eq]
      rw [ihtl]
      simp [hy1, hy2, List.append_assoc]

/-- C7: if the check-and-enable step of a capability fails, the gate waits
1000 ms and re-runs the whole step exactly once more (first conjunct: the
fail-then-succeed case continues with the rest of the list); if the retry
fails as well, the gate throws an error naming the capability and no later
capability is processed (second conjunct: the trace ends with the two
attempts of the failing capability and the error names it). -/
theorem claim_c7_gate_retry_abort (b : ApiBackend) (pre post rest : List String)
    (a x : String)
    (hpre : ∀ y ∈ pre,
      (checkAndEnableApi b y 1).1 = true ∨ (checkAndEnableApi b y 2).1 = true)
    (h1 : (checkAndEnableApi b a 1).1 = false)
    (h2 : (checkAndEnableApi b a 2).1 = false)
    (hx1 : (checkAndEnableApi b x 1).1 = false)
    (hx2 : (checkAndEnableApi b x 2).1 = true) :
    ensureApisEnabled b (x :: rest) =
      ((checkAndEnableApi b x 1).2 ++
          GateEvent.wait 1000 :: (checkAndEnableApi b x 2).2 ++
            (ensureApisEnabled b rest).1,
        (ensureApisEnabled b rest).2) ∧
    ensureApisEnabled b (pre ++ a :: post) =
      ((ensureApisEnabled b pre).1 ++
          ((checkAndEnableApi b a 1).2 ++
            GateEvent.wait 1000 :: (checkAndEnableApi b a 2).2),
        some ("Failed to ensure API [" ++ a ++
          "] is enabled after retry. Please check manually.")) := by
  constructor
  · simp [ensureApisEnabled, hx1, hx2]
  · rw [ensureApisEnabled_append_ok b pre hpre (a :: post)]
    simp [ensureApisEnabled, h1, h2]

theorem claim_c7_witness :
    ensureApisEnabled
        ⟨fun a n => if a = "cloudbuild.googleapis.com" ∨ (a = "iam.googleapis.com" ∧ n = 1)
            then none else some "ENABLED",
          fun _ _ => false⟩
        ["storage.googleapis.com", "cloudbuild.googleapis.com", "run.googleapis.com"] =
      ([GateEvent.getSvc "storage.googleapis.com",
        GateEvent.getSvc "cloudbuild.googleapis.com", GateEvent.wait 1000,
        GateEvent.getSvc "cloudbuild.googleapis.com"],
        some ("Failed to ensure API [cloudbuild.googleapis.com] is enabled after retry." ++
          " Please check manually.")) := by
  have h := (claim_c7_gate_retry_abort
    ⟨fun a n => if a = "cloudbuild.googleapis.com" ∨ (a = "iam.googleapis.com" ∧ n = 1)
        then none else some "ENABLED",
      fun _ _ => false⟩
    ["storage.googleapis.com"] ["run.googleapis.com"] []
    "cloudbuild.googleapis.com" "iam.googleapis.com"
    (by decide) (by decide) (by decide) (by decide) (by decide)).2
  simp only [List.cons_append, List.nil_append] at h
  rw [h]
  decide

/-! ## Build Trigger & Poller (`triggerCloudBuild`, lib/cloud-api/build.js)

After `createBuild`, the function loops: `getBuild`; if the status is one of
the five terminal values it stops, otherwise it sleeps 5000 ms and polls
again.  On a non-success terminal status it throws
"Build {id} failed.{snippet}" where the snippet is either the fetched log
lines or a fallback naming the log URL. -/

/-- The `DELAY_WAIT_FOR_BUILD_LOGS` constant (10 s before fetching build logs). -/
def DELAY_WAIT_FOR_BUILD_LOGS : Nat := 10000

/-- The `BUILD_LOGS_LINES_TO_FETCH` constant (page size of the log fetch). -/
def BUILD_LOGS_LINES_TO_FETCH : Nat := 100

/-- A build record as returned by `getBuild`: its `status`, `logUrl` and the
names in `results.images`. -/
structure Build where
  status : String
  logUrl : String
  images : List String
deriving DecidableEq

/-- The five terminal statuses of the polling loop. -/
def terminalStatuses : List String :=
  ["SUCCESS", "FAILURE", "INTERNAL_ERROR", "TIMEOUT", "CANCELLED"]

def isTerminalStatus (s : String) : Bool := terminalStatuses.contains s

/-- The polling loop of `triggerCloudBuild`, given the successive `getBuild`
results: the number of `getBuild` calls made, the sleeps performed (5000 ms
between consecutive polls), and the final build record; `none` when the
modelled result sequence is exhausted before a terminal status appears. -/
def pollBuild : List Build → Option (Nat × List Nat × Build)
  | [] => none
  | b :: rest =>
    if isTerminalStatus b.status then some (1, [], b)
    else
      match pollBuild rest with
      | some (calls, sleeps, fin) => some (calls + 1, 5000 :: sleeps, fin)
      | none => none

/-- C4: the poller stops exactly at the first terminal status: after `k`
non-terminal polls followed by a terminal one it has called `getBuild`
`k + 1` times, slept `k` times of 5000 ms each, and returns that terminal
build record unchanged (with its resulting image references). For the
sequence [working, working, success] this gives 3 calls and 2 sleeps (see
the witness). -/
theorem claim_c4_poll_loop (pre : List Build) (b : Build) (rest : List Build)
    (hpre : ∀ x ∈ pre, isTerminalStatus x.status = false)
    (hb : isTerminalStatus b.status = true) :
    pollBuild (pre ++ b :: rest) =
      some (pre.length + 1, List.replicate pre.length 5000, b) := by
  induction pre with
  | nil => simp [pollBuild, hb]
  | cons x tl ih =>
    have hx := hpre x (List.mem_cons_self x tl)
    have ih2 := ih (fun y hy => hpre y (List.mem_cons_of_mem x hy))
    simp only [List.cons_append, pollBuild, hx, Bool.false_eq_true, if_false,
      List.append_eq]
    rw [ih2]
    simp [List.replicate_succ]

theorem claim_c4_witness :
    pollBuild
        [⟨"WORKING", "u", []⟩, ⟨"WORKING", "u", []⟩,
          ⟨"SUCCESS", "u", ["r-docker.pkg.dev/p/repo/app:latest"]⟩] =
      some (3, [5000, 5000],
        ⟨"SUCCESS", "u", ["r-docker.pkg.dev/p/repo/app:latest"]⟩) := by
  have h := claim_c4_poll_loop [⟨"WORKING", "u", []⟩, ⟨"WORKING", "u", []⟩]
    ⟨"SUCCESS", "u", ["r-docker.pkg.dev/p/repo/app:latest"]⟩ []
    (by decide) (by decide)
  simpa [List.replicate] using h

/-! ## Build failure message construction (`triggerCloudBuild`, failure arm) -/

/-- One entry returned by `loggingClient.getEntries`; `data` is its payload
(`none` models a missing/falsy `entry.data`, rendered as ""). -/
structure LogEntry where
  data : Option String
deriving DecidableEq

/-- Rendering of a log payload, as in `entry.data || ""` of the source. -/
def entryText (e : LogEntry) : String := e.data.getD ""

/-- The default snippet installed before the log fetch is attempted. -/
def defaultLogSnippet (logUrl : String) : String :=
  "\n\nRefer to Log URL for full details: " ++ logUrl

/-- The snippet after the log-fetch attempt.  The source guards the
replacement twice (`entries.length > 0` and then `logLines.length > 0`);
since `logLines` is obtained from `entries` by `reverse().map(...)` the two
lengths are equal, so a single guard is faithful. -/
def buildLogsSnippet (buildId logUrl : String)
    (fetch : Except JsError (List LogEntry)) : String :=
  match fetch with
  | .error _ => defaultLogSnippet logUrl
  | .ok entries =>
    if entries.length > 0 then
      "\n\nLast " ++ toString (entries.reverse.map entryText).length ++
        " log lines from build " ++ buildId ++ ":\n" ++
        String.intercalate "\n" (entries.reverse.map entryText)
    else defaultLogSnippet logUrl

/-- The message of the error thrown for a non-success terminal build. -/
def buildFailureErrorMessage (buildId logUrl : String)
    (fetch : Except JsError (List LogEntry)) : String :=
  "Build " ++ buildId ++ " failed." ++ buildLogsSnippet buildId logUrl fetch

/-- Proposition that `needle` occurs as a contiguous substring of `hay`. -/
def StrContains (hay needle : String) : Prop :=
  ∃ p q, hay = p ++ needle ++ q

theorem strAppend_assoc (a b c : String) : a ++ b ++ c = a ++ (b ++ c) :=
  String.ext (by simp [String.data_append, List.append_assoc])

theorem strContains_refl (s : String) : StrContains s s :=
  ⟨"", "", String.ext (by
    simp [String.data_append, show ("" : String).data = [] from rfl])⟩

theorem strContains_append_left {hay n : String} (b : String)
    (h : StrContains hay n) : StrContains (hay ++ b) n := by
  obtain ⟨p, q, rfl⟩ := h
  exact ⟨p, q ++ b, by simp [strAppend_assoc]⟩

theorem strContains_append_right (a : String) {hay n : String}
    (h : StrContains hay n) : StrContains (a ++ hay) n := by
  obtain ⟨p, q, rfl⟩ := h
  exact ⟨a ++ p, q, by simp [strAppend_assoc]⟩

/-- C2: for every non-success terminal build, the thrown error message
contains the build identifier, and contains the fetched log snippet when the
log fetch returned at least one entry, and the log URL when the fetch failed
or returned no entries; it never lacks both. -/
theorem claim_c2_failure_message (buildId logUrl : String)
    (fetch : Except JsError (List LogEntry)) :
    StrContains (buildFailureErrorMessage buildId logUrl fetch) buildId ∧
    (match fetch with
     | .error _ => StrContains (buildFailureErrorMessage buildId logUrl fetch) logUrl
     | .ok entries =>
       if entries.length > 0 then
         StrContains (buildFailureErrorMessage buildId logUrl fetch)
           (String.intercalate "\n" (entries.reverse.map entryText))
       else StrContains (buildFailureErrorMessage buildId logUrl fetch) logUrl) := by
  constructor
  · exact strContains_append_left _
      (strContains_append_left _
        (strContains_append_right _ (strContains_refl buildId)))
  · cases fetch with
    | error e =>
      simp only [buildFailureErrorMessage, buildLogsSnippet, defaultLogSnippet]
      exact strContains_append_right _
        (strContains_append_right _ (strContains_refl logUrl))
    | ok entries =>
      by_cases h : entries.length > 0
      · simp only [buildFailureErrorMessage, buildLogsSnippet, h, if_true]
        exact strContains_append_right _
          (strContains_append_right _
            (strContains_refl (String.intercalate "\n" (entries.reverse.map entryText))))
      · simp only [buildFailureErrorMessage, buildLogsSnippet, defaultLogSnippet, h,
          if_false]
        exact strContains_append_right _
          (strContains_append_right _ (strContains_refl logUrl))

/-! ## Service Deployer (`deployToCloudRun`, lib/deployment/deployer.js)

The function builds a service definition (with `invokerIamDisabled = true`
exactly when `skipIamCheck` is set), performs a validate-only create or
update (branch chosen by the existence check), and on a dry-run failure
either strips the flag and proceeds to the real mutation — when
`skipIamCheck` is set, the error message is truthy, and the lower-cased
message contains "invokeriamdisabled" or "iam policy violation" or the
error code is 3 — or throws
"Dry run validation failed for service {id}: {message}". -/

/-- Embedding of JS `String.prototype.isPrefixOf`-style and `includes`
behaviour: `subListOf needle hay` decides whether `needle` occurs
contiguously in `hay`. -/
def subListOf (needle : List Char) : List Char → Bool
  | [] => needle.isEmpty
  | c :: t => needle.isPrefixOf (c :: t) || subListOf needle t

/-- JS `hay.includes(needle)`. -/
def strIncludes (hay needle : String) : Bool := subListOf needle.data hay.data

/-- JS `s.toLowerCase()` for the ASCII range relevant here, applied
character by character. -/
def strToLower (s : String) : String := String.mk (s.data.map Char.toLower)

/-- The `template` part of the service definition built by
`deployToCloudRun` (unique revision name and container image). -/
structure CRServiceTemplate where
  revision : String
  image : String
deriving DecidableEq

/-- The service definition submitted to the Cloud Run client.
`invokerIamDisabled = none` models the property being absent from the
object; `name` is set only on the update path. -/
structure CRService where
  template : CRServiceTemplate
  labels : List (String × String)
  invokerIamDisabled : Option Bool
  name : Option String
deriving DecidableEq

/-- The service object initially built by `deployToCloudRun` (`now` stands
for `Date.now()` in the revision name). -/
def initialService (serviceId imgUrl : String) (now : Nat) (skip : Bool) :
    CRService :=
  ⟨⟨serviceId ++ "-" ++ toString now, imgUrl⟩,
    [("created-by", "cloud-run-mcp")],
    if skip then some true else none,
    none⟩

/-- Setting `service.name` (done before an update call). -/
def withName (svc : CRService) (n : Option String) : CRService :=
  ⟨svc.template, svc.labels, svc.invokerIamDisabled, n⟩

/-- Removal of the flag, as done by `delete service.invokerIamDisabled`. -/
def withoutInvokerFlag (svc : CRService) : CRService :=
  ⟨svc.template, svc.labels, none, svc.name⟩

/-- The name built by `runClient.servicePath(projectId, location, serviceId)`. -/
def servicePathOf (projectId location serviceId : String) : String :=
  "projects/" ++ projectId ++ "/locations/" ++ location ++ "/services/" ++
    serviceId

/-- The calls submitted to the Cloud Run client, with the service
configuration they carry. -/
inductive RunCall
  | createValidateOnly (svc : CRService)
  | updateValidateOnly (svc : CRService)
  | createSvc (svc : CRService)
  | updateSvc (svc : CRService)
deriving DecidableEq

/-- The guard of the invoker-flag fallback, exactly as in the source:
`skipIamCheck && dryRunError.message && (msg.toLowerCase().includes...
|| msg.toLowerCase().includes... || dryRunError.code === 3)`. -/
def invokerFallbackCond (skip : Bool) (e : JsError) : Bool :=
  skip && truthyMsg e.message &&
    (strIncludes (strToLower (jsStr e.message)) "invokeriamdisabled" ||
      strIncludes (strToLower (jsStr e.message)) "iam policy violation" ||
      e.code == some 3)

/-- Embedding of `deployToCloudRun`, given the outcome of the dry-run validation
(`none` = dry run succeeded, `some e` = it threw `e`): the Cloud Run calls
submitted and either the configuration of the real mutation (`Except.ok`)
or the message of the thrown error (`Except.error`), in which case the real
mutation is never attempted. -/
def deployToCloudRun (projectId location serviceId imgUrl : String)
    (now : Nat) (skip exist : Bool) (dryRunErr : Option JsError) :
    List RunCall × Except String CRService :=
  let svc := initialService serviceId imgUrl now skip
  let path := servicePathOf projectId location serviceId
  let dryCfg := if exist then withName svc (some path) else svc
  let dryCall := if exist then RunCall.updateValidateOnly dryCfg
    else RunCall.createValidateOnly dryCfg
  match dryRunErr with
  | none =>
    let finalSvc := if exist then withName svc (some path) else svc
    ([dryCall,
        if exist then RunCall.updateSvc finalSvc else RunCall.createSvc finalSvc],
      Except.ok finalSvc)
  | some e =>
    if invokerFallbackCond skip e then
      let svc2 := withoutInvokerFlag svc
      let finalSvc := if exist then withName svc2 (some path) else svc2
      ([dryCall,
          if exist then RunCall.updateSvc finalSvc else RunCall.createSvc finalSvc],
        Except.ok finalSvc)
    else
      ([dryCall],
        Except.error ("Dry run validation failed for service " ++ serviceId ++
          ": " ++ jsStr e.message))

/-- The configuration carried by the first real (non-validate-only)
mutation, if any was submitted. -/
def realMutationArg (calls : List RunCall) : Option CRService :=
  calls.findSome? fun c =>
    match c with
    | RunCall.createSvc s => some s
    | RunCall.updateSvc s => some s
    | _ => none

/-- The service configuration the fallback path submits: the initial
definition with the `invokerIamDisabled` flag removed. -/
def strippedFinalService (projectId location serviceId imgUrl : String)
    (now : Nat) (exist : Bool) : CRService :=
  let svc2 := withoutInvokerFlag (initialService serviceId imgUrl now true)
  if exist then withName svc2 (some (servicePathOf projectId location serviceId))
  else svc2

/-- C1 counterexample: with the bypass flag set and a dry-run error
classified invalid-argument (code 3) but carrying no message, the claim
predicts the real mutation is submitted with the flag removed; the code
instead throws the dry-run validation error and never attempts the real
mutation. -/
theorem claim_c1_counterexample :
    (⟨none, some 3⟩ : JsError).code = some 3 ∧
    realMutationArg
        (deployToCloudRun "p" "l" "svc" "img" 0 true false
          (some ⟨none, some 3⟩)).1 = none ∧
    (deployToCloudRun "p" "l" "svc" "img" 0 true false
        (some ⟨none, some 3⟩)).2 =
      Except.error "Dry run validation failed for service svc: undefined" := by
  refine ⟨rfl, rfl, rfl⟩

/-- C1 (amended): with the bypass flag set, if the dry-run error carries a
non-empty message and that message contains an invoker-related phrase
(lower-cased "invokeriamdisabled" or "iam policy violation") or the error
is classified invalid-argument (code 3), then the real create-or-update
mutation is submitted with the `invokerIamDisabled` flag removed; for any
other dry-run failure (including an invalid-argument error with an absent
or empty message) the call throws an error naming the service and the real
mutation is never attempted. -/
theorem claim_c1_dry_run_fallback (projectId location serviceId imgUrl : String)
    (now : Nat) (exist : Bool) (e : JsError) :
    ((truthyMsg e.message = true ∧
        (strIncludes (strToLower (jsStr e.message)) "invokeriamdisabled" = true ∨
          strIncludes (strToLower (jsStr e.message)) "iam policy violation" = true ∨
          e.code = some 3)) →
      realMutationArg
          (deployToCloudRun projectId location serviceId imgUrl now true exist
            (some e)).1 =
        some (strippedFinalService projectId location serviceId imgUrl now exist) ∧
      (strippedFinalService projectId location serviceId imgUrl now
          exist).invokerIamDisabled = none ∧
      (deployToCloudRun projectId location serviceId imgUrl now true exist
          (some e)).2 =
        Except.ok (strippedFinalService projectId location serviceId imgUrl now
          exist)) ∧
    ((truthyMsg e.message = false ∨
        (strIncludes (strToLower (jsStr e.message)) "invokeriamdisabled" = false ∧
          strIncludes (strToLower (jsStr e.message)) "iam policy violation" = false ∧
          e.code ≠ some 3)) →
      realMutationArg
          (deployToCloudRun projectId location serviceId imgUrl now true exist
            (some e)).1 = none ∧
      (deployToCloudRun projectId location serviceId imgUrl now true exist
          (some e)).2 =
        Except.error ("Dry run validation failed for service " ++ serviceId ++
          ": " ++ jsStr e.message)) := by
  constructor
  · intro h
    have hcond : invokerFallbackCond true e = true := by
      unfold invokerFallbackCond
      rcases h with ⟨ht, hd⟩
      rcases hd with h3 | h3 | h3 <;> simp [ht, h3]
    cases exist with
    | false =>
      simp [deployToCloudRun, hcond, realMutationArg, strippedFinalService,
        withoutInvokerFlag, withName]
    | true =>
      simp [deployToCloudRun, hcond, realMutationArg, strippedFinalService,
        withoutInvokerFlag, withName]
  · intro h
    have hcond : invokerFallbackCond true e = false := by
      unfold invokerFallbackCond
      rcases h with ht | ⟨h1, h2, h3⟩
      · simp [ht]
      · simp [h1, h2, h3]
    cases exist with
    | false => simp [deployToCloudRun, hcond, realMutationArg]
    | true => simp [deployToCloudRun, hcond, realMutationArg]

theorem claim_c1_amended_witness :
    realMutationArg
        (deployToCloudRun "p" "l" "s" "img" 7 true false
          (some ⟨some "field invokerIamDisabled is not supported", none⟩)).1 =
      some (strippedFinalService "p" "l" "s" "img" 7 false) ∧
    realMutationArg
        (deployToCloudRun "p" "l" "s" "img" 7 true true
          (some ⟨some "quota exceeded", some 8⟩)).1 = none := by
  constructor
  · exact ((claim_c1_dry_run_fallback "p" "l" "s" "img" 7 false
      ⟨some "field invokerIamDisabled is not supported", none⟩).1
      ⟨by decide, Or.inl (by decide)⟩).1
  · exact ((claim_c1_dry_run_fallback "p" "l" "s" "img" 7 true
      ⟨some "quota exceeded", some 8⟩).2
      (Or.inr ⟨by decide, by decide, by decide⟩)).1

/-- C10: a dry-run error classified invalid-argument (code 3) whose message
is absent or empty does not trigger the fallback even with the bypass flag
set: the dry-run validation error is thrown (naming the service) and the
real mutation is never attempted. -/
theorem claim_c10_empty_message_no_fallback
    (projectId location serviceId imgUrl : String) (now : Nat) (exist : Bool)
    (e : JsError) (hmsg : e.message = none ∨ e.message = some "")
    (_hcode : e.code = some 3) :
    realMutationArg
        (deployToCloudRun projectId location serviceId imgUrl now true exist
          (some e)).1 = none ∧
    (deployToCloudRun projectId location serviceId imgUrl now true exist
        (some e)).2 =
      Except.error ("Dry run validation failed for service " ++ serviceId ++
        ": " ++ jsStr e.message) := by
  have ht : truthyMsg e.message = false := by
    rcases hmsg with h | h <;> simp [truthyMsg, h]
  have hcond : invokerFallbackCond true e = false := by
    unfold invokerFallbackCond
    simp [ht]
  cases exist with
  | false => simp [deployToCloudRun, hcond, realMutationArg]
  | true => simp [deployToCloudRun, hcond, realMutationArg]

theorem claim_c10_witness :
    realMutationArg
        (deployToCloudRun "proj" "reg" "app" "img" 3 true true
          (some ⟨some "", some 3⟩)).1 = none ∧
    (deployToCloudRun "proj" "reg" "app" "img" 3 true true
        (some ⟨some "", some 3⟩)).2 =
      Except.error "Dry run validation failed for service app: " := by
  have h := claim_c10_empty_message_no_fallback "proj" "reg" "app" "img" 3 true
    ⟨some "", some 3⟩ (Or.inr rfl) rfl
  exact ⟨h.1, h.2⟩

/-! ## Packager (`zipFiles`, lib/util/archive.js)

For each item of the input list: an object bearing both a `filename` and a
`content` property is appended as an in-memory file; a string is rewritten
("/c" prefix to "/mnt" ++ path), resolved, checked for existence
("File or directory not found: {path}" if absent) and added either as a
flattened directory subtree (`archive.directory(filePath, false)`, no
wrapping folder) or as a single named file; anything else throws
"Invalid file format: ...".  Because `typeof null === "object"` in JS, a
`null` item reaches the property test `"filename" in file`, which throws a
TypeError instead. -/

/-- JS `s.startsWith(p)`: exact character-wise prefix test. -/
def strStartsWith (s p : String) : Bool := p.data.isPrefixOf s.data

/-- The WSL normalization of `zipFiles`: a path starting with "/c" gets
"/mnt" prepended. -/
def wslRewrite (p : String) : String :=
  if strStartsWith p "/c" then "/mnt" ++ p else p

/-- Splitting a character list on a separator (used to model the
"/"-component structure of a POSIX path). -/
def splitOnChar (sep : Char) : List Char → List (List Char)
  | [] => [[]]
  | c :: t =>
    if c == sep then [] :: splitOnChar sep t
    else
      match splitOnChar sep t with
      | [] => [[c]]
      | h :: t2 => (c :: h) :: t2

/-- The POSIX `path.basename`: the last non-empty "/"-separated component;
degenerate inputs ("" or "/") are returned unchanged. -/
def jsBasename (p : String) : String :=
  match ((splitOnChar '/' p.data).filter (fun s => !s.isEmpty)).getLast? with
  | some b => String.mk b
  | none => p

/-- The filesystem and path resolver seen by `zipFiles`: `resolve` models
`path.resolve` (applied after the WSL rewrite), `pathExists` models
`fs.existsSync` and `isDirectory` models `fs.statSync(..).isDirectory()`. -/
structure ZipFS where
  resolve : String → String
  pathExists : String → Bool
  isDirectory : String → Bool

/-- An element of the `files` argument of `zipFiles`, at the granularity the
source inspects it: a string, a non-null object (with flags recording
whether it bears the `filename` and `content` properties), the JS `null`
value (whose `typeof` is "object"), or any other value (number, boolean,
undefined, ...). -/
inductive ZipItem
  | strV (s : String)
  | objV ( hasFilename hasContent : Bool) (filename content : String)
  | nullV
  | otherV (tag : String)
deriving DecidableEq

/-- The archive operations performed by `zipFiles`. -/
inductive ZipAction
  | appendContent (content name : String)
  | addDirectoryFlat (path : String)
  | addFile (path name : String)
deriving DecidableEq

/-- The failures of the per-item processing of `zipFiles`.  `nullInOperator` is
the TypeError raised by evaluating `"filename" in null`. -/
inductive ZipError
  | notFound (resolvedPath : String)
  | invalidFormat (item : ZipItem)
  | nullInOperator
deriving DecidableEq

/-- Processing of a single item of the `files` list, in source order: the
object test first, then the string branch, else "Invalid file format". -/
def processZipItem (fs : ZipFS) : ZipItem → Except ZipError ZipAction
  | .objV hf hc fn c =>
    if hf && hc then Except.ok (ZipAction.appendContent c fn)
    else Except.error (ZipError.invalidFormat (ZipItem.objV hf hc fn c))
  | .nullV => Except.error ZipError.nullInOperator
  | .strV s =>
    let filePath := fs.resolve (wslRewrite s)
    if fs.pathExists filePath then
      if fs.isDirectory filePath then Except.ok (ZipAction.addDirectoryFlat filePath)
      else Except.ok (ZipAction.addFile filePath (jsBasename filePath))
    else Except.error (ZipError.notFound filePath)
  | .otherV t => Except.error (ZipError.invalidFormat (ZipItem.otherV t))

/-- Embedding of `zipFiles` over the whole list: the archive operations in order, or the
error of the first failing item. -/
def zipFilesModel (fs : ZipFS) : List ZipItem → Except ZipError (List ZipAction)
  | [] => Except.ok []
  | it :: rest =>
    match processZipItem fs it with
    | Except.error e => Except.error e
    | Except.ok a =>
      match zipFilesModel fs rest with
      | Except.error e => Except.error e
      | Except.ok as => Except.ok (a :: as)

def isStringItem : ZipItem → Bool
  | .strV _ => true
  | _ => false

def isObjWithBoth : ZipItem → Bool
  | .objV true true _ _ => true
  | _ => false

def isInvalidFormatError : Except ZipError ZipAction → Bool
  | .error (.invalidFormat _) => true
  | _ => false

/-- C8 counterexample: the JS value `null` is neither a string nor an object
bearing `filename` and `content`, so the claim predicts an
"Invalid file format" error; the code instead throws a TypeError from
`"filename" in null` (because `typeof null === "object"` routes `null` into
the property test). -/
theorem claim_c8_counterexample :
    isStringItem ZipItem.nullV = false ∧
    isObjWithBoth ZipItem.nullV = false ∧
    processZipItem ⟨id, fun _ => true, fun _ => false⟩ ZipItem.nullV =
      Except.error ZipError.nullInOperator ∧
    isInvalidFormatError
        (processZipItem ⟨id, fun _ => true, fun _ => false⟩ ZipItem.nullV) =
      false :=
  ⟨rfl, rfl, rfl, rfl⟩

/-- C8 (amended): for every item of the `zipFiles` input list: a string item
has a leading "/c" prefix rewritten to "/mnt/c" before resolution, and if
the resolved path does not exist the operation fails with a
"File or directory not found" error; an item that is neither a string nor an
object bearing both `filename` and `content` fails with an
"Invalid file format" error — except the JS value `null`, which fails with a
TypeError from the property test; a string item resolving to a directory is
added as a flattened subtree with no wrapping folder; a failing item makes
the whole `zipFiles` call fail with that error. -/
theorem claim_c8_zip_items (fs : ZipFS) :
    (∀ r, wslRewrite ("/c" ++ r) = "/mnt/c" ++ r) ∧
    (∀ s, fs.pathExists (fs.resolve (wslRewrite s)) = false →
      processZipItem fs (ZipItem.strV s) =
        Except.error (ZipError.notFound (fs.resolve (wslRewrite s)))) ∧
    (∀ s, fs.pathExists (fs.resolve (wslRewrite s)) = true →
      fs.isDirectory (fs.resolve (wslRewrite s)) = true →
      processZipItem fs (ZipItem.strV s) =
        Except.ok (ZipAction.addDirectoryFlat (fs.resolve (wslRewrite s)))) ∧
    (∀ it, isStringItem it = false → isObjWithBoth it = false →
      it ≠ ZipItem.nullV →
      processZipItem fs it = Except.error (ZipError.invalidFormat it)) ∧
    processZipItem fs ZipItem.nullV = Except.error ZipError.nullInOperator ∧
    (∀ it rest er, processZipItem fs it = Except.error er →
      zipFilesModel fs (it :: rest) = Except.error er) := by
  refine ⟨fun r => ?_, fun s hne => ?_, fun s hex hdir => ?_,
    fun it hs ho hn => ?_, rfl, fun it rest er her => ?_⟩
  · have hdata : ("/c" ++ r).data = '/' :: 'c' :: r.data := by
      rw [String.data_append]
      rfl
    have hsw : strStartsWith ("/c" ++ r) "/c" = true := by
      unfold strStartsWith
      rw [hdata]
      simp [List.isPrefixOf]
    unfold wslRewrite
    rw [hsw]
    simp only [if_true]
    apply String.ext
    simp only [String.data_append]
    rfl
  · simp [processZipItem, hne]
  · simp [processZipItem, hex, hdir]
  · cases it with
    | strV s => simp [isStringItem] at hs
    | nullV => exact absurd rfl hn
    | otherV t => rfl
    | objV hf hc fn c =>
      have hmix : (hf && hc) = false := by
        cases hf <;> cases hc <;> simp_all [isObjWithBoth]
      simp [processZipItem, hmix]
  · simp [zipFilesModel, her]

theorem claim_c8_amended_witness :
    wslRewrite ("/c" ++ "/app") = "/mnt/c" ++ "/app" ∧
    processZipItem ⟨id, fun p => p == "/mnt/c/app", fun _ => true⟩
        (ZipItem.strV "/missing") =
      Except.error (ZipError.notFound "/missing") ∧
    processZipItem ⟨id, fun p => p == "/mnt/c/app", fun _ => true⟩
        (ZipItem.strV "/c/app") =
      Except.ok (ZipAction.addDirectoryFlat "/mnt/c/app") ∧
    processZipItem ⟨id, fun p => p == "/mnt/c/app", fun _ => true⟩
        (ZipItem.otherV "number") =
      Except.error (ZipError.invalidFormat (ZipItem.otherV "number")) ∧
    zipFilesModel ⟨id, fun p => p == "/mnt/c/app", fun _ => true⟩
        [ZipItem.nullV, ZipItem.strV "/c/app"] =
      Except.error ZipError.nullInOperator := by
  have h := claim_c8_zip_items ⟨id, fun p => p == "/mnt/c/app", fun _ => true⟩
  refine ⟨h.1 "/app", h.2.1 "/missing" (by decide), ?_, ?_, ?_⟩
  · exact h.2.2.1 "/c/app" (by decide) (by decide)
  · exact h.2.2.2.1 (ZipItem.otherV "number") (by decide) (by decide) (by decide)
  · exact h.2.2.2.2.2 ZipItem.nullV [ZipItem.strV "/c/app"] ZipError.nullInOperator
      h.2.2.2.2.1

/-! ## Dockerfile detection (`deploy`, lib/deployment/deployer.js)

`deploy` sets `hasDockerfile` as follows: when `files` is a single string
naming a directory, it checks `fs.existsSync(path.join(dir, "Dockerfile"))`
and `fs.existsSync(path.join(dir, "dockerfile"))` — two exact spellings;
otherwise it scans the list and matches
`path.basename(...).toLowerCase() === "dockerfile"` on string items and on
objects with a truthy `filename`. -/

/-- The filesystem seen by the detection: `isDir p` models
`fs.statSync(p).isDirectory()` and `entries p` the set of names inside the
directory `p`, so that `fs.existsSync(path.join(p, name))` is membership of
`name` in `entries p` (a case-sensitive filesystem, as on the Linux hosts
the tool targets). -/
structure DirFS where
  isDir : String → Bool
  entries : String → List String

/-- An element of the `files` argument of `deploy`, at the granularity the
detection loop inspects it: a path string, an object with a `filename`
property, or anything else (skipped by the loop). -/
inductive DeployFile
  | path (s : String)
  | mem (filename : String)
  | other
deriving DecidableEq

/-- The claim-side predicate: the base name of the path string or of the
`filename` field case-insensitively equals "dockerfile". -/
def dockerfileBaseName : DeployFile → Bool
  | .path s => strToLower (jsBasename s) == "dockerfile"
  | .mem fn => strToLower (jsBasename fn) == "dockerfile"
  | .other => false

/-- The file-list scan of the detection (the `for`-loop with early break is
an existence test over the list). -/
def detectDockerfileList (files : List DeployFile) : Bool :=
  files.any fun f =>
    match f with
    | .path s => strToLower (jsBasename s) == "dockerfile"
    | .mem fn => !(fn == "") && (strToLower (jsBasename fn) == "dockerfile")
    | .other => false

/-- Test for a one-element list holding a path string. -/
def isSingleStringPath : List DeployFile → Bool
  | [DeployFile.path _] => true
  | _ => false

/-- The `hasDockerfile` computation of `deploy`. -/
def detectDockerfile (fs : DirFS) (files : List DeployFile) : Bool :=
  match files with
  | [DeployFile.path p] =>
    if fs.isDir p then
      (fs.entries p).contains "Dockerfile" || (fs.entries p).contains "dockerfile"
    else detectDockerfileList [DeployFile.path p]
  | _ => detectDockerfileList files

/-- C9 counterexample: a single-directory input whose directory holds an
entry named "DOCKERFILE" — which case-insensitively equals "dockerfile", so
the claim predicts detection is true — is not detected, because the source
only probes the two exact spellings "Dockerfile" and "dockerfile". -/
theorem claim_c9_counterexample :
    detectDockerfile ⟨fun _ => true, fun _ => ["DOCKERFILE"]⟩
      [DeployFile.path "d"] = false ∧
    (⟨fun _ => true, fun _ => ["DOCKERFILE"]⟩ : DirFS).isDir "d" = true ∧
    ((⟨fun _ => true, fun _ => ["DOCKERFILE"]⟩ : DirFS).entries "d").any
      (fun e => strToLower e == "dockerfile") = true := by
  refine ⟨?_, rfl, ?_⟩ <;> decide

theorem detectDockerfileList_eq_any (files : List DeployFile) :
    detectDockerfileList files = files.any dockerfileBaseName := by
  unfold detectDockerfileList
  induction files with
  | nil => rfl
  | cons f rest ih =>
    simp only [List.any_cons, ih]
    congr 1
    cases f with
    | path s => rfl
    | other => rfl
    | mem fn =>
      by_cases h : fn = ""
      · subst h
        decide
      · simp [dockerfileBaseName, h]

theorem detectDockerfile_eq_list (fs : DirFS) (files : List DeployFile)
    (h : isSingleStringPath files = false) :
    detectDockerfile fs files = detectDockerfileList files := by
  cases files with
  | nil => rfl
  | cons f rest =>
    cases rest with
    | cons g tl =>
      cases f with
      | path p => rfl
      | mem fn => rfl
      | other => rfl
    | nil =>
      cases f with
      | path p => simp [isSingleStringPath] at h
      | mem fn => rfl
      | other => rfl

/-- C9 (amended): for a single-directory input, detection is true exactly
when the directory contains an entry named exactly "Dockerfile" or exactly
"dockerfile" (not any other casing); for an explicit file list, detection is
true exactly when the base name of some item (of the path string or of the
`filename` field) case-insensitively equals "dockerfile". -/
theorem claim_c9_dockerfile_detection (fs : DirFS) :
    (∀ p, fs.isDir p = true →
      (detectDockerfile fs [DeployFile.path p] = true ↔
        "Dockerfile" ∈ fs.entries p ∨ "dockerfile" ∈ fs.entries p)) ∧
    (∀ p, fs.isDir p = false →
      (detectDockerfile fs [DeployFile.path p] = true ↔
        ∃ f ∈ [DeployFile.path p], dockerfileBaseName f = true)) ∧
    (∀ files, isSingleStringPath files = false →
      (detectDockerfile fs files = true ↔
        ∃ f ∈ files, dockerfileBaseName f = true)) := by
  refine ⟨fun p hdir => ?_, fun p hnotdir => ?_, fun files hshape => ?_⟩
  · simp [detectDockerfile, hdir]
  · rw [show detectDockerfile fs [DeployFile.path p] =
      detectDockerfileList [DeployFile.path p] by
        simp [detectDockerfile, hnotdir]]
    rw [detectDockerfileList_eq_any]
    exact List.any_eq_true
  · rw [detectDockerfile_eq_list fs files hshape, detectDockerfileList_eq_any]
    exact List.any_eq_true

theorem claim_c9_amended_witness :
    (detectDockerfile ⟨fun _ => true, fun _ => ["Dockerfile", "app.js"]⟩
        [DeployFile.path "d"] = true ↔
      "Dockerfile" ∈ ["Dockerfile", "app.js"] ∨
        "dockerfile" ∈ ["Dockerfile", "app.js"]) ∧
    (detectDockerfile ⟨fun _ => false, fun _ => []⟩
        [DeployFile.path "src/DockerFile", DeployFile.mem "app.js"] = true ↔
      ∃ f ∈ [DeployFile.path "src/DockerFile", DeployFile.mem "app.js"],
        dockerfileBaseName f = true) := by
  constructor
  · exact (claim_c9_dockerfile_detection
      ⟨fun _ => true, fun _ => ["Dockerfile", "app.js"]⟩).1 "d" rfl
  · exact (claim_c9_dockerfile_detection ⟨fun _ => false, fun _ => []⟩).2.2
      [DeployFile.path "src/DockerFile", DeployFile.mem "app.js"] (by decide)

end CloudRunMCP
